import Mathlib

/-!
Verification of the linked multi-view selection/filtering engine.

A shallow embedding of the dashboard wiring in `app.py`: the selection
state (spatial brush plus two categorical picks), the per-view filter
composition, the category-ordering and palette resolver, the bar / pie /
heatmap view computations, and the sample-size handling.  Pure fragments
of the Python/Altair source are translated as Lean functions; the Vega
expression primitives used by the source (`slice`, `toNumber`, scale
lookup) are given their documented meaning on our value type.
-/

namespace BMVVA

/-- A cell value of the tabular dataset: numeric or categorical (string). -/
inductive Value where
  | num (n : Int)
  | str (s : String)
deriving DecidableEq, Repr

/-- One record of the working sample: required coordinates plus an open
set of named attributes (a missing name models a null cell). -/
structure Row where
  latitude : Int
  longitude : Int
  attrs : List (String × Value)
deriving DecidableEq, Repr

/-- Attribute lookup; `none` models a null / missing cell. -/
def Row.get (r : Row) (f : String) : Option Value :=
  r.attrs.lookup f

/-- A closed axis-aligned brush region in longitude/latitude space. -/
structure Region where
  lonMin : Int
  lonMax : Int
  latMin : Int
  latMax : Int
deriving DecidableEq, Repr

/-- The live selection state: `brush` from `alt.selection_interval`,
and the two point selections `sel_mapbar` / `sel_pie`, each recording
the field it was built over and the clicked value. -/
structure DashState where
  mapBarField : String
  pieField : String
  brush : Option Region
  mapbarPick : Option (String × Value)
  piePick : Option (String × Value)
deriving DecidableEq, Repr

/-- Semantics of an interval selection used as a predicate: an unset
brush passes every row. -/
def brushPred : Option Region → Row → Bool
  | none, _ => true
  | some reg, r =>
      decide (reg.lonMin ≤ r.longitude) && decide (r.longitude ≤ reg.lonMax) &&
      decide (reg.latMin ≤ r.latitude) && decide (r.latitude ≤ reg.latMax)

/-- Semantics of a point selection used as a predicate: an empty pick
passes every row, a pick `(f, v)` passes rows whose field `f` equals `v`. -/
def selPred : Option (String × Value) → Row → Bool
  | none, _ => true
  | some (f, v), r => r.get f == some v

/-- The three selection parameters a `transform_filter` can reference. -/
inductive SelRef where
  | brushSel
  | selMapbar
  | selPie
deriving DecidableEq, Repr

/-- Evaluate a referenced selection against the current state. -/
def evalSel (s : DashState) : SelRef → Row → Bool
  | .brushSel => brushPred s.brush
  | .selMapbar => selPred s.mapbarPick
  | .selPie => selPred s.piePick

/-- Source: `points = Chart(df_plot).transform_filter(sel_mapbar).transform_filter(sel_pie)`;
the brush appears only in the opacity condition, not as a filter. -/
def pointsFilters : List SelRef := [.selMapbar, .selPie]

/-- Source: `bar = Chart(df_plot).transform_filter(brush).transform_filter(sel_pie)`. -/
def barFilters : List SelRef := [.brushSel, .selPie]

/-- Source: `pie = Chart(df_plot).transform_filter(brush).transform_filter(sel_mapbar)`. -/
def pieFilters : List SelRef := [.brushSel, .selMapbar]

/-- Source: `temporal_heatmap = Chart(df_plot).transform_filter(brush)
.transform_filter(sel_mapbar).transform_filter(sel_pie)`. -/
def heatFilters : List SelRef := [.brushSel, .selMapbar, .selPie]

/-- A row survives a chart's `transform_filter` pipeline iff every
referenced selection passes it. -/
def rowPasses (filters : List SelRef) (s : DashState) (r : Row) : Bool :=
  filters.all (fun f => evalSel s f r)

/-- The map's per-point opacity: target opacity inside the brush,
a small constant outside (`alt.condition(brush, point_opacity, 0.05)`);
opacities are scaled by 100 to stay integral. -/
def pointOpacity (s : DashState) (targetOpacityPct : Nat) (r : Row) : Nat :=
  if brushPred s.brush r then targetOpacityPct else 5

/-- Semantics of `pandas.Series.unique`: distinct values in first-seen order. -/
def uniqueAux [DecidableEq α] (seen : List α) : List α → List α
  | [] => []
  | a :: rest => if a ∈ seen then uniqueAux seen rest else a :: uniqueAux (a :: seen) rest

/-- Distinct values of a list in first-seen order. -/
def uniqueList [DecidableEq α] (l : List α) : List α :=
  uniqueAux [] l

/-- Semantics of `Series.dropna`: the non-null values, order kept. -/
def dropna (l : List (Option Value)) : List Value :=
  l.filterMap id

/-- The canonical severity order hard-coded in `_ordered_categories`. -/
def severity_order : List Value :=
  [.str "slight", .str "serious", .str "fatal"]

/-- The canonical day-of-week order hard-coded in `_ordered_categories`. -/
def dow_order : List Value :=
  [.str "Monday", .str "Tuesday", .str "Wednesday", .str "Thursday",
   .str "Friday", .str "Saturday", .str "Sunday"]

/-- Source: `_ordered_categories(field, series)` — distinct non-null values; for
`accident_severity` only canonical values present are kept (in canonical
order); for `day_of_week` canonical values present come first and any
extras are appended; other fields keep first-seen order. -/
def ordered_categories (field : String) (series : List (Option Value)) : List Value :=
  let cats := uniqueList (dropna series)
  if field == "accident_severity" then
    severity_order.filter (fun c => cats.contains c)
  else if field == "day_of_week" then
    let ordered := dow_order.filter (fun d => cats.contains d)
    let extras := cats.filter (fun d => !ordered.contains d)
    ordered ++ extras
  else
    cats

/-- The spec's formula for a canonically ordered domain: the canonical
order restricted to the distinct non-null values present, with any
values outside the canonical list appended afterward in first-seen
order.  Stated from the spec's words, to compare with
`ordered_categories` from the source. -/
def specDomainCanonical (canon : List Value) (series : List (Option Value)) : List Value :=
  let cats := uniqueList (dropna series)
  canon.filter (fun c => cats.contains c) ++ cats.filter (fun c => !canon.contains c)

/-- The two user-chosen categorical fields (mapBar role and pie role). -/
structure Config where
  mapColorField : String
  pieColorField : String
deriving DecidableEq, Repr

/-- The column `df_plot[field]` as a series of nullable values. -/
def columnOf (field : String) (sample : List Row) : List (Option Value) :=
  sample.map (fun r => r.get field)

/-- The rendered bar chart: a fixed y-scale domain
(`bar_categories`, from the unfiltered working sample) and one bar per
domain entry whose length is the filtered count. -/
structure BarView where
  domain : List Value
  bars : List (Value × Nat)
deriving DecidableEq, Repr

/-- The bar chart of the source: domain from
`_ordered_categories(map_color_field, df_plot[map_color_field])` on the
unfiltered sample; counts over the rows surviving
`transform_filter(brush).transform_filter(sel_pie)`. -/
def barView (cfg : Config) (sample : List Row) (s : DashState) : BarView :=
  let cats := ordered_categories cfg.mapColorField (columnOf cfg.mapColorField sample)
  let fr := sample.filter (rowPasses barFilters s)
  { domain := cats
    bars := cats.map (fun c =>
      (c, (fr.filter (fun r => r.get cfg.mapColorField == some c)).length)) }

/-- An Altair/Vega ordinal scale: an explicit domain and, optionally,
an explicit color range; `range = none` delegates the palette to the
rendering layer's default. -/
structure Scale where
  domain : List Value
  range : Option (List String)
deriving DecidableEq, Repr

/-- The fixed 3-color severity palette of `_color_scale_for`. -/
def severity_palette : List String := ["#84c3ff", "#627cf3", "#E44848"]

/-- The fixed 2-color palette of `_color_scale_for`. -/
def two_palette : List String := ["#e63946", "#0694d6"]

/-- Source: `_color_scale_for(field, categories)` — the severity palette when the
field is `accident_severity` and the category list is non-empty (Python
truthiness of a list), else the 2-color palette when there are exactly
two categories, else the default scale over the domain. -/
def color_scale_for (field : String) (categories : List Value) : Scale :=
  if field == "accident_severity" && !categories.isEmpty then
    { domain := categories, range := some severity_palette }
  else if categories.length == 2 then
    { domain := categories, range := some two_palette }
  else
    { domain := categories, range := none }

/-- Vega ordinal-scale semantics: colors are assigned to domain entries
positionally from the start of the range list. -/
def scaleColor (sc : Scale) (v : Value) : Option String :=
  match sc.range with
  | some rg =>
      if sc.domain.contains v then rg.get? (sc.domain.findIdx (fun x => x == v))
      else none
  | none => none

/-- Fuel-indexed grouping: peel the first key, count its occurrences,
recurse on the remaining keys.  The fuel (any bound on the list length)
makes the recursion structural. -/
def groupCountsF {κ : Type} [DecidableEq κ] : Nat → List κ → List (κ × Nat)
  | _, [] => []
  | 0, _ :: _ => []
  | fuel + 1, k :: rest =>
      (k, 1 + (rest.filter (fun x => decide (x = k))).length)
        :: groupCountsF fuel (rest.filter (fun x => !decide (x = k)))

/-- Vega `transform_aggregate(count="count()", groupby=[field])`: one
group per distinct key in first-seen order, with its number of rows. -/
def groupCounts {κ : Type} [DecidableEq κ] (l : List κ) : List (κ × Nat) :=
  groupCountsF l.length l

/-- One arc of the pie: its group key (a cell value, or null), the
aggregated count, and the computed `percent = count / total`. -/
structure PieSlice where
  key : Option Value
  count : Nat
  percent : Rat
deriving DecidableEq, Repr

/-- The pie chart of the source: rows surviving
`transform_filter(brush).transform_filter(sel_mapbar)` are grouped by
the pie field (`transform_aggregate`), `total` is the sum of all group
counts (`transform_joinaggregate`), and each slice carries
`percent = datum.count / datum.total` (`transform_calculate`). -/
def pieView (cfg : Config) (sample : List Row) (s : DashState) : List PieSlice :=
  let fr := sample.filter (rowPasses pieFilters s)
  let groups := groupCounts (fr.map (fun r => r.get cfg.pieColorField))
  let total := (groups.map Prod.snd).sum
  groups.map (fun g => { key := g.1, count := g.2, percent := (g.2 : Rat) / (total : Rat) })

/-- Vega `slice(s, 0, 2)` on a string: its first two characters. -/
def vegaSlice2 (s : String) : String := String.mk (s.data.take 2)

/-- Vega `toNumber` on a string: the parsed decimal number, or null
(NaN) when the text is not numeric. -/
def vegaToNumber (s : String) : Option Nat :=
  if s.data.all Char.isDigit && !s.data.isEmpty then
    some (s.data.foldl (fun n c => n * 10 + (c.toNat - 48)) 0)
  else none

/-- Source: `calc_hour`, the heatmap's hour expression — `datum[TIME_COL]`
itself when the time column is numeric, otherwise
`toNumber(slice(datum[TIME_COL], 0, 2))`. -/
def calc_hour (is_time_numeric : Bool) (v : Option Value) : Option Int :=
  if is_time_numeric then
    match v with
    | some (.num n) => some n
    | _ => none
  else
    match v with
    | some (.str s) => (vegaToNumber (vegaSlice2 s)).map Int.ofNat
    | _ => none

/-- The heatmap's aggregated cells: rows surviving the full
three-selection filter, grouped by `(day_of_week, derived hour)` with a
count per group. -/
def heatmapCells (timeCol : String) (is_time_numeric : Bool)
    (sample : List Row) (s : DashState) : List ((Option Value × Option Int) × Nat) :=
  let fr := sample.filter (rowPasses heatFilters s)
  groupCounts (fr.map (fun r =>
    (r.get "day_of_week", calc_hour is_time_numeric (r.get timeCol))))

/-- The count recorded for a key among aggregated groups, `0` when the
key has no group. -/
def lookupCount {κ : Type} [DecidableEq κ] (gs : List (κ × Nat)) (k : κ) : Nat :=
  ((gs.find? (fun g => decide (g.1 = k))).map Prod.snd).getD 0

/-- The rendered value of the heatmap cell at `(day, hour)`: the count
of its group, `0` when no filtered row falls in the cell. -/
def heatCell (timeCol : String) (is_time_numeric : Bool) (sample : List Row)
    (s : DashState) (day : String) (h : Int) : Nat :=
  lookupCount (heatmapCells timeCol is_time_numeric sample s)
    (some (.str day), some h)

/-- The `_time_candidates` probed for a usable time-of-day column. -/
def timeCandidates : List String :=
  ["hour", "accident_hour", "time_of_day", "time", "accident_time"]

/-- Source: `TIME_COL = next((c for c in _time_candidates if c in all_cols), None)`. -/
def findTimeCol (cols : List String) : Option String :=
  timeCandidates.find? (fun c => cols.contains c)

/-- The heatmap panel: either real aggregated cells, or the static
placeholder text chart. -/
inductive HeatmapOut where
  | cells (cs : List ((Option Value × Option Int) × Nat))
  | placeholder (note : String)
deriving DecidableEq, Repr

/-- Source: `temporal_heatmap` — built only when a time-like column was found and
`day_of_week` exists; otherwise the static placeholder text chart. -/
def temporal_heatmap (cols : List String) (is_time_numeric : Bool)
    (sample : List Row) (s : DashState) : HeatmapOut :=
  match findTimeCol cols with
  | some t =>
      if cols.contains "day_of_week" then
        .cells (heatmapCells t is_time_numeric sample s)
      else
        .placeholder "Missing day_of_week or time column to build heatmap."
  | none => .placeholder "Missing day_of_week or time column to build heatmap."

/-- The four dependent views as rendered from one selection state. -/
structure Dashboard where
  mapRows : List Row
  barV : BarView
  pieV : List PieSlice
  heat : HeatmapOut

/-- Assemble all four views; each view is computed independently from
the sample and the selection state. -/
def buildDashboard (cfg : Config) (cols : List String) (is_time_numeric : Bool)
    (sample : List Row) (s : DashState) : Dashboard :=
  { mapRows := sample.filter (rowPasses pointsFilters s)
    barV := barView cfg sample s
    pieV := pieView cfg sample s
    heat := temporal_heatmap cols is_time_numeric sample s }

/-- Modelled from the spec: the slider widget's output contract for the
sample size — an integer bounded to the dataset size with minimum 1000
(the widget itself is part of the excluded UI layer, so its clamping is
not in the repository's source). -/
def sliderValue (requested lo hi : Nat) : Nat :=
  min (max requested lo) hi

/-- A linear congruential step, standing in for pandas' seeded
pseudo-random number stream. -/
def lcgNext (s : Nat) : Nat :=
  (s * 1103515245 + 12345) % (2 ^ 31)

/-- Modelled from the spec: `df.sample(n, random_state=seed)` — a
seeded uniform random sample without replacement of exactly `n` rows
(pandas' sampler is external to the repository; any deterministic
seed-driven selection without replacement realizes the contract). -/
def seededSample {α : Type _} : Nat → Nat → List α → List α
  | _, 0, _ => []
  | _, _ + 1, [] => []
  | seed, n + 1, x :: xs =>
      let i := seed % (x :: xs).length
      ((x :: xs).getD i x) :: seededSample (lcgNext seed) n ((x :: xs).eraseIdx i)

/-- The working sample: `df.sample(n_points, random_state=42)` when the
slider value is below the dataset size, otherwise the full dataset. -/
def workingSample (requested : Nat) (df : List Row) : List Row :=
  let n_points := sliderValue requested 1000 df.length
  if n_points < df.length then seededSample 42 n_points df else df

/-- The session-start state for given bound fields: no brush, no picks. -/
def initState (f0 g0 : String) : DashState :=
  { mapBarField := f0, pieField := g0, brush := none,
    mapbarPick := none, piePick := none }

/-- The user gestures that mutate the selection state. -/
inductive Event where
  | setBrush (r : Option Region)
  | clickBar (v : Value)
  | clearBar
  | clickPie (v : Value)
  | clearPie
  | switchMapBarField (f : String)
  | switchPieField (f : String)
deriving DecidableEq, Repr

/-- One synchronous gesture: clicking a bar or slice records the pick
for the role's currently bound field; a double-click clears it; choosing
a different column in a field selector reruns the script, which rebuilds
`selection_point(fields=[new field])` fresh — the pick restarts unset. -/
def step (s : DashState) : Event → DashState
  | .setBrush r => { s with brush := r }
  | .clickBar v => { s with mapbarPick := some (s.mapBarField, v) }
  | .clearBar => { s with mapbarPick := none }
  | .clickPie v => { s with piePick := some (s.pieField, v) }
  | .clearPie => { s with piePick := none }
  | .switchMapBarField f => { s with mapBarField := f, mapbarPick := none }
  | .switchPieField f => { s with pieField := f, piePick := none }

/-- The selection states observable in a session that started with the
given bound fields. -/
inductive Reachable (f0 g0 : String) : DashState → Prop where
  | start : Reachable f0 g0 (initState f0 g0)
  | next (s : DashState) (e : Event) : Reachable f0 g0 s → Reachable f0 g0 (step s e)

end BMVVA

namespace BMVVA

/-- C1: the Filter Composer combines exactly the listed selections per
view by logical AND, each view excluding its own selection: the map
filters by mapBar pick AND pie pick (brush excluded from filtering), the
bar by brush AND pie pick, the pie by brush AND mapBar pick, the heatmap
by all three; unset selections pass every row, and each view's filter is
invariant under changes to its own excluded selection. -/
theorem filter_composition_rule (s : DashState) (r : Row) :
    (rowPasses pointsFilters s r = (selPred s.mapbarPick r && selPred s.piePick r)) ∧
    (rowPasses barFilters s r = (brushPred s.brush r && selPred s.piePick r)) ∧
    (rowPasses pieFilters s r = (brushPred s.brush r && selPred s.mapbarPick r)) ∧
    (rowPasses heatFilters s r
      = (brushPred s.brush r && (selPred s.mapbarPick r && selPred s.piePick r))) ∧
    (∀ b, rowPasses pointsFilters { s with brush := b } r = rowPasses pointsFilters s r) ∧
    (∀ p, rowPasses barFilters { s with mapbarPick := p } r = rowPasses barFilters s r) ∧
    (∀ p, rowPasses pieFilters { s with piePick := p } r = rowPasses pieFilters s r) ∧
    (brushPred none r = true ∧ selPred none r = true) := by
  refine ⟨?_, ?_, ?_, ?_, ?_, ?_, ?_, ?_, ?_⟩ <;>
    simp [rowPasses, pointsFilters, barFilters, pieFilters, heatFilters, evalSel,
      brushPred, selPred, Bool.and_assoc]

/-- Unfolding lemma: the severity branch of `_ordered_categories`. -/
theorem ordered_categories_sev_eq (series : List (Option Value)) :
    ordered_categories "accident_severity" series
      = severity_order.filter (fun c => (uniqueList (dropna series)).contains c) :=
  rfl

/-- Unfolding lemma: the day-of-week branch of `_ordered_categories`. -/
theorem ordered_categories_dow_eq (series : List (Option Value)) :
    ordered_categories "day_of_week" series
      = dow_order.filter (fun d => (uniqueList (dropna series)).contains d)
        ++ (uniqueList (dropna series)).filter (fun d =>
              !(dow_order.filter (fun c =>
                  (uniqueList (dropna series)).contains c)).contains d) :=
  rfl

/-- Unfolding lemma for the spec-side domain formula. -/
theorem specDomainCanonical_eq (canon : List Value) (series : List (Option Value)) :
    specDomainCanonical canon series
      = canon.filter (fun c => (uniqueList (dropna series)).contains c)
        ++ (uniqueList (dropna series)).filter (fun c => !canon.contains c) :=
  rfl

/-- C2 (counterexample): for `accident_severity` the source DROPS values
outside the canonical list instead of appending them: on a sample
containing the non-canonical value `"unknown"`, the resolved domain is
not the claim's canonical-plus-extras formula. -/
theorem severity_extras_dropped :
    ordered_categories "accident_severity"
        [some (.str "fatal"), some (.str "slight"), some (.str "unknown")]
      ≠ specDomainCanonical severity_order
        [some (.str "fatal"), some (.str "slight"), some (.str "unknown")] := by
  decide

/-- C2 (amended): for `day_of_week` the resolved domain equals the
canonical order restricted to the distinct non-null values present with
non-canonical leftovers appended in first-seen order; for
`accident_severity` it equals only the canonical part of that formula
(values outside the canonical list are dropped); the sample
`["fatal","slight","slight"]` resolves to `["slight","fatal"]`. -/
theorem canonical_domain_resolution (series : List (Option Value)) :
    ordered_categories "day_of_week" series = specDomainCanonical dow_order series ∧
    ordered_categories "accident_severity" series
      = (specDomainCanonical severity_order series).filter
          (fun c => severity_order.contains c) ∧
    ordered_categories "accident_severity"
        [some (.str "fatal"), some (.str "slight"), some (.str "slight")]
      = [.str "slight", .str "fatal"] := by
  refine ⟨?_, ?_, by decide⟩
  · rw [ordered_categories_dow_eq, specDomainCanonical_eq]
    refine congrArg (fun l =>
      dow_order.filter (fun d => (uniqueList (dropna series)).contains d) ++ l) ?_
    refine List.filter_congr (fun d hd => ?_)
    simp [List.contains, hd]
  · rw [ordered_categories_sev_eq, specDomainCanonical_eq, List.filter_append,
      List.filter_filter, List.filter_filter]
    have h2 : (uniqueList (dropna series)).filter
        (fun a => severity_order.contains a && !severity_order.contains a) = [] := by
      simp
    rw [h2, List.append_nil]
    refine List.filter_congr (fun c hc => ?_)
    simp [List.contains, hc]

/-- Mapping each element to a pair keyed by itself and projecting the
key back is the identity. -/
theorem map_fst_pairs {α β : Type _} (l : List α) (g : α → β) :
    (l.map (fun c => (c, g c))).map Prod.fst = l := by
  induction l with
  | nil => rfl
  | cons a t ih => simpa using ih

/-- C3: the bar view's category domain is computed from the unfiltered
working sample, hence identical under any two selection states, and in
every state the bars drawn are exactly the domain entries in domain
order — zero-count bars included, never reordered or removed. -/
theorem bar_domain_stability (cfg : Config) (sample : List Row) (s s' : DashState) :
    (barView cfg sample s).domain = (barView cfg sample s').domain ∧
    (barView cfg sample s).bars.map Prod.fst = (barView cfg sample s).domain := by
  exact ⟨rfl, map_fst_pairs _ _⟩

/-- C5 (counterexample): for the severity field with an empty resolved
domain the source skips the severity branch (Python truthiness) and
returns the default scale, not the fixed 3-color palette the claim's
regime rule dictates. -/
theorem severity_empty_domain_default :
    ¬ ((color_scale_for "accident_severity" []).range = some severity_palette) := by
  decide

/-- C5 (amended): the scale's domain always equals the category domain,
and the three regimes are: severity field with a NON-EMPTY domain gets
the fixed 3-color palette; otherwise a 2-entry domain gets the fixed
2-color palette; otherwise the palette is delegated to the rendering
layer (`range = none`). -/
theorem color_scale_regimes (field : String) (cats : List Value) :
    (color_scale_for field cats).domain = cats ∧
    (field = "accident_severity" → cats ≠ [] →
      (color_scale_for field cats).range = some severity_palette) ∧
    ((field ≠ "accident_severity" ∨ cats = []) → cats.length = 2 →
      (color_scale_for field cats).range = some two_palette) ∧
    ((field ≠ "accident_severity" ∨ cats = []) → cats.length ≠ 2 →
      (color_scale_for field cats).range = none) := by
  refine ⟨?_, ?_, ?_, ?_⟩
  · unfold color_scale_for
    split
    · rfl
    · split
      · rfl
      · rfl
  · intro h hne
    subst h
    cases cats with
    | nil => exact absurd rfl hne
    | cons a t => simp [color_scale_for]
  · intro h h2
    rcases h with hf | hc
    · have hb : (field == "accident_severity") = false := by simp [hf]
      simp [color_scale_for, hb, h2]
    · subst hc
      simp at h2
  · intro h h2
    rcases h with hf | hc
    · have hb : (field == "accident_severity") = false := by simp [hf]
      have hl : (cats.length == 2) = false := by simp [h2]
      simp [color_scale_for, hb, hl]
    · subst hc
      simp [color_scale_for]

/-- Witness for `color_scale_regimes` at concrete inputs of each regime. -/
theorem color_scale_regimes_witness :
    (color_scale_for "accident_severity" severity_order).range = some severity_palette ∧
    (color_scale_for "weather_conditions"
        [.str "fine", .str "rain"]).range = some two_palette ∧
    (color_scale_for "weather_conditions"
        [.str "fine", .str "rain", .str "snow"]).range = none :=
  ⟨(color_scale_regimes "accident_severity" severity_order).2.1 rfl (by decide),
   (color_scale_regimes "weather_conditions" [.str "fine", .str "rain"]).2.2.1
     (Or.inl (by decide)) (by decide),
   (color_scale_regimes "weather_conditions" [.str "fine", .str "rain", .str "snow"]).2.2.2
     (Or.inl (by decide)) (by decide)⟩

/-- C10: in the severity regime the range is always the same fixed
3-color list regardless of how many severity values the domain holds,
and colors are positional, so for the 2-entry domain
`["slight","fatal"]` the value `"fatal"` gets the second palette color,
not the dedicated red third color. -/
theorem severity_palette_positional :
    (∀ cats : List Value, cats ≠ [] →
      (color_scale_for "accident_severity" cats).range = some severity_palette) ∧
    severity_palette.length = 3 ∧
    scaleColor (color_scale_for "accident_severity" [.str "slight", .str "fatal"])
        (.str "fatal") = some "#627cf3" ∧
    scaleColor (color_scale_for "accident_severity" [.str "slight", .str "fatal"])
        (.str "fatal") ≠ some "#E44848" := by
  refine ⟨?_, by decide, by decide, by decide⟩
  intro cats hne
  cases cats with
  | nil => exact absurd rfl hne
  | cons a t => simp [color_scale_for]

/-- Witness for `severity_palette_positional` on a 2-entry severity domain. -/
theorem severity_palette_positional_witness :
    (color_scale_for "accident_severity"
        [.str "slight", .str "fatal"]).range = some severity_palette :=
  severity_palette_positional.1 [.str "slight", .str "fatal"] (by decide)

/-- A filter and its complement partition a list's length. -/
theorem length_filter_split {α : Type _} (l : List α) (p : α → Bool) :
    (l.filter p).length + (l.filter (fun a => !(p a))).length = l.length := by
  induction l with
  | nil => rfl
  | cons a t ih =>
      cases h : p a <;> simp [List.filter_cons, h] <;> omega

/-- With enough fuel, the aggregated group counts sum to the number of
grouped rows. -/
theorem groupCountsF_sum {κ : Type} [DecidableEq κ] (fuel : Nat) :
    ∀ l : List κ, l.length ≤ fuel →
      ((groupCountsF fuel l).map Prod.snd).sum = l.length := by
  induction fuel with
  | zero =>
      intro l hl
      cases l with
      | nil => rfl
      | cons a t =>
          simp only [List.length_cons] at hl
          omega
  | succ fuel ih =>
      intro l hl
      cases l with
      | nil => rfl
      | cons k rest =>
          simp only [groupCountsF, List.map_cons, List.sum_cons]
          have hle : (rest.filter (fun x => !decide (x = k))).length ≤ fuel := by
            have h1 := List.length_filter_le (fun x => !decide (x = k)) rest
            simp only [List.length_cons] at hl
            omega
          rw [ih _ hle]
          have hsplit := length_filter_split rest (fun x => decide (x = k))
          simp only [List.length_cons]
          omega

/-- The aggregated group counts sum to the number of grouped rows. -/
theorem groupCounts_sum {κ : Type} [DecidableEq κ] (l : List κ) :
    ((groupCounts l).map Prod.snd).sum = l.length :=
  groupCountsF_sum l.length l (Nat.le_refl _)

/-- Dividing each count by a common total and summing equals dividing
the summed counts. -/
theorem sum_counts_div {κ : Type _} (groups : List (κ × Nat)) (T : Rat) :
    (groups.map (fun g => (g.2 : Rat) / T)).sum
      = (((groups.map Prod.snd).sum : Nat) : Rat) / T := by
  induction groups with
  | nil => simp
  | cons g t ih =>
      simp only [List.map_cons, List.sum_cons, ih]
      push_cast
      ring

/-- C4: over any non-empty filtered subset, every pie slice's percentage
is its filtered count divided by the total of all filtered counts (the
number of filtered rows), and the percentages over all slices sum to 1. -/
theorem pie_percentages (cfg : Config) (sample : List Row) (s : DashState)
    (h : sample.filter (rowPasses pieFilters s) ≠ []) :
    ((pieView cfg sample s).map PieSlice.percent).sum = 1 ∧
    (∀ sl ∈ pieView cfg sample s,
      sl.percent
        = (sl.count : Rat) / ((sample.filter (rowPasses pieFilters s)).length : Rat)) := by
  have htot :
      ((groupCounts ((sample.filter (rowPasses pieFilters s)).map
          (fun r => r.get cfg.pieColorField))).map Prod.snd).sum
        = (sample.filter (rowPasses pieFilters s)).length := by
    rw [groupCounts_sum, List.length_map]
  have hlen : ((sample.filter (rowPasses pieFilters s)).length : Rat) ≠ 0 := by
    have : (sample.filter (rowPasses pieFilters s)).length ≠ 0 := by
      simpa [List.length_eq_zero] using h
    exact_mod_cast this
  constructor
  · simp only [pieView, List.map_map]
    rw [show (PieSlice.percent ∘ fun g : Option Value × Nat =>
        ({ key := g.1, count := g.2,
           percent := (g.2 : Rat) /
             (((groupCounts ((sample.filter (rowPasses pieFilters s)).map
                 (fun r => r.get cfg.pieColorField))).map Prod.snd).sum : Rat) } : PieSlice))
      = fun g : Option Value × Nat => (g.2 : Rat) /
          (((groupCounts ((sample.filter (rowPasses pieFilters s)).map
              (fun r => r.get cfg.pieColorField))).map Prod.snd).sum : Rat) from rfl]
    rw [sum_counts_div, htot]
    exact div_self hlen
  · intro sl hsl
    simp only [pieView, List.mem_map] at hsl
    obtain ⟨g, hg, rfl⟩ := hsl
    simp only [htot]

/-- A pie configuration over a single categorical column `cat`. -/
def cfgABC : Config := { mapColorField := "cat", pieColorField := "cat" }

/-- A sample of 20 rows: 10 of category A, 5 of B, 5 of C. -/
def sampleABC : List Row :=
  List.replicate 10 { latitude := 0, longitude := 0, attrs := [("cat", .str "A")] } ++
  List.replicate 5 { latitude := 0, longitude := 0, attrs := [("cat", .str "B")] } ++
  List.replicate 5 { latitude := 0, longitude := 0, attrs := [("cat", .str "C")] }

/-- The session-start selection state: no brush, no picks. -/
def emptyState : DashState :=
  { mapBarField := "cat", pieField := "cat", brush := none,
    mapbarPick := none, piePick := none }

/-- Witness for `pie_percentages`: counts {A:10, B:5, C:5} under no
active filter give percentages 50%, 25%, 25%, summing to 1. -/
theorem pie_percentages_witness :
    (sampleABC.filter (rowPasses pieFilters emptyState) ≠ []) ∧
    ((pieView cfgABC sampleABC emptyState).map PieSlice.percent).sum = 1 ∧
    (pieView cfgABC sampleABC emptyState).map PieSlice.percent
      = [(1 : Rat)/2, 1/4, 1/4] := by
  refine ⟨by decide, (pie_percentages cfgABC sampleABC emptyState (by decide)).1, ?_⟩
  have hv : pieView cfgABC sampleABC emptyState
      = [{ key := some (.str "A"), count := 10,
           percent := ((10 : Nat) : Rat) / ((20 : Nat) : Rat) },
         { key := some (.str "B"), count := 5,
           percent := ((5 : Nat) : Rat) / ((20 : Nat) : Rat) },
         { key := some (.str "C"), count := 5,
           percent := ((5 : Nat) : Rat) / ((20 : Nat) : Rat) }] := by
    rfl
  rw [hv]
  norm_num

/-- Deciding equality of pairs is the conjunction of deciding it
componentwise. -/
theorem pair_decide_split {α β : Type _} [DecidableEq α] [DecidableEq β]
    (a c : α) (b d : β) :
    (decide ((a, b) = (c, d))) = (decide (a = c) && decide (b = d)) := by
  by_cases h1 : a = c <;> by_cases h2 : b = d <;> simp [h1, h2]

/-- With enough fuel, looking a key up in the aggregated groups yields
the number of its occurrences (0 when absent). -/
theorem groupCountsF_lookup {κ : Type} [DecidableEq κ] (fuel : Nat) :
    ∀ (l : List κ) (k : κ), l.length ≤ fuel →
      lookupCount (groupCountsF fuel l) k
        = (l.filter (fun x => decide (x = k))).length := by
  induction fuel with
  | zero =>
      intro l k hl
      cases l with
      | nil => rfl
      | cons a t =>
          simp only [List.length_cons] at hl
          omega
  | succ fuel ih =>
      intro l k hl
      cases l with
      | nil => rfl
      | cons k' rest =>
          by_cases hk : k = k'
          · subst hk
            simp [lookupCount, groupCountsF, List.find?, List.filter_cons,
              Nat.add_comm]
          · have hb' : (decide (k' = k)) = false := by simp [Ne.symm hk]
            simp only [groupCountsF, lookupCount, List.find?, hb',
              List.filter_cons, Bool.false_eq_true, if_false]
            have hle : (rest.filter (fun x => !decide (x = k'))).length ≤ fuel := by
              have h1 := List.length_filter_le (fun x => !decide (x = k')) rest
              simp only [List.length_cons] at hl
              omega
            have := ih (rest.filter (fun x => !decide (x = k'))) k hle
            simp only [lookupCount] at this
            rw [this, List.filter_filter]
            refine congrArg List.length (List.filter_congr (fun x _ => ?_))
            by_cases hx : x = k
            · subst hx
              simp [hk]
            · simp [hx]

/-- Looking a key up in the aggregated groups yields the number of its
occurrences, 0 when absent. -/
theorem groupCounts_lookup {κ : Type} [DecidableEq κ] (l : List κ) (k : κ) :
    lookupCount (groupCounts l) k = (l.filter (fun x => decide (x = k))).length :=
  groupCountsF_lookup l.length l k (Nat.le_refl _)

/-- C6: the derived hour of a string time is parsed from its first two
characters (`"08:15"` gives 8); a numeric time value is used directly;
and every heatmap cell `(day, hour)` counts exactly the rows that pass
the full three-selection filter and have that day-of-week value and that
derived hour. -/
theorem heatmap_hour_semantics :
    (calc_hour false (some (.str "08:15")) = some 8) ∧
    (∀ n : Int, calc_hour true (some (.num n)) = some n) ∧
    (∀ (timeCol : String) (is_time_numeric : Bool) (sample : List Row)
        (s : DashState) (day : String) (h : Int),
      heatCell timeCol is_time_numeric sample s day h
        = ((sample.filter (rowPasses heatFilters s)).filter (fun r =>
            decide (r.get "day_of_week" = some (.str day))
              && decide (calc_hour is_time_numeric (r.get timeCol) = some h))).length) := by
  refine ⟨by decide, fun n => rfl, ?_⟩
  intro timeCol is_time_numeric sample s day h
  simp only [heatCell, heatmapCells]
  rw [groupCounts_lookup, List.filter_map, List.length_map]
  refine congrArg List.length (List.filter_congr (fun r _ => ?_))
  exact pair_decide_split _ _ _ _

/-- C8: when the prerequisites are missing (no time-like column found or
no `day_of_week` column), the heatmap is the static placeholder with its
explanatory note, and the map, bar and pie views of the dashboard are
exactly their normal computations — nothing fails or changes elsewhere. -/
theorem heatmap_placeholder_on_missing_fields (cfg : Config) (cols : List String)
    (is_time_numeric : Bool) (sample : List Row) (s : DashState)
    (h : findTimeCol cols = none ∨ cols.contains "day_of_week" = false) :
    (buildDashboard cfg cols is_time_numeric sample s).heat
        = .placeholder "Missing day_of_week or time column to build heatmap." ∧
    (buildDashboard cfg cols is_time_numeric sample s).mapRows
        = sample.filter (rowPasses pointsFilters s) ∧
    (buildDashboard cfg cols is_time_numeric sample s).barV = barView cfg sample s ∧
    (buildDashboard cfg cols is_time_numeric sample s).pieV = pieView cfg sample s := by
  refine ⟨?_, rfl, rfl, rfl⟩
  rcases h with h | h
  · simp [buildDashboard, temporal_heatmap, h]
  · have h' : "day_of_week" ∉ cols := by simpa [List.contains] using h
    cases hf : findTimeCol cols <;>
      simp [buildDashboard, temporal_heatmap, hf, h']

/-- Witness for `heatmap_placeholder_on_missing_fields`: a dataset with
coordinates and severity but neither a time-like column nor
`day_of_week`. -/
theorem heatmap_placeholder_witness :
    (buildDashboard cfgABC ["latitude", "longitude", "accident_severity"]
        false sampleABC emptyState).heat
      = .placeholder "Missing day_of_week or time column to build heatmap." :=
  (heatmap_placeholder_on_missing_fields cfgABC
    ["latitude", "longitude", "accident_severity"] false sampleABC emptyState
    (Or.inl (by decide))).1

/-- A seeded sample of `n` rows from at least `n` rows has exactly `n`
rows. -/
theorem seededSample_length {α : Type _} :
    ∀ (n seed : Nat) (rows : List α), n ≤ rows.length →
      (seededSample seed n rows).length = n := by
  intro n
  induction n with
  | zero => intro seed rows _; rfl
  | succ n ih =>
      intro seed rows h
      cases rows with
      | nil => simp only [List.length_nil] at h; omega
      | cons x xs =>
          have hpos : 0 < (x :: xs).length := by simp
          have hi : seed % (x :: xs).length < (x :: xs).length := Nat.mod_lt _ hpos
          have he := List.length_eraseIdx_add_one hi
          simp only [seededSample, List.length_cons]
          rw [ih (lcgNext seed) _ (by simp only [List.length_cons] at h he ⊢; omega)]

/-- C7 (counterexample): for a dataset of 500 rows the interval
`[1000, datasetSize]` is empty, so the slider's clamped value cannot lie
in it — the claim fails for dataset sizes below 1000. -/
theorem sample_clamp_small_dataset :
    ¬ (1000 ≤ sliderValue 2000 1000 500) := by
  decide

/-- C7 (amended): for every dataset of at least 1000 rows, the slider
value is clamped into `[1000, datasetSize]` with no error; the working
sample is the full dataset when the requested size is not below the
dataset size, and otherwise (clamped size below the dataset size) a
seeded sample of exactly the clamped size. -/
theorem sample_size_clamped (requested : Nat) (df : List Row)
    (hds : 1000 ≤ df.length) :
    (1000 ≤ sliderValue requested 1000 df.length ∧
      sliderValue requested 1000 df.length ≤ df.length) ∧
    (df.length ≤ requested → workingSample requested df = df) ∧
    (sliderValue requested 1000 df.length < df.length →
      (workingSample requested df).length
        = sliderValue requested 1000 df.length) := by
  refine ⟨⟨?_, ?_⟩, ?_, ?_⟩
  · simp only [sliderValue]
    omega
  · simp only [sliderValue]
    omega
  · intro hreq
    have hn : sliderValue requested 1000 df.length = df.length := by
      simp only [sliderValue]
      omega
    simp [workingSample, hn]
  · intro hlt
    simp only [workingSample]
    rw [if_pos hlt]
    exact seededSample_length _ _ _ (Nat.le_of_lt hlt)

/-- A 1001-row dataset. -/
def dfLarge : List Row :=
  List.replicate 1001 { latitude := 0, longitude := 0, attrs := [] }

/-- Witness for `sample_size_clamped`: a request of 600 on 1001 rows is
clamped up to 1000 and sampled to exactly 1000 rows. -/
theorem sample_size_clamped_witness :
    (1000 ≤ dfLarge.length) ∧
    (1000 ≤ sliderValue 600 1000 dfLarge.length ∧
      sliderValue 600 1000 dfLarge.length ≤ dfLarge.length) ∧
    ((workingSample 600 dfLarge).length = sliderValue 600 1000 dfLarge.length) := by
  have hlen : dfLarge.length = 1001 := List.length_replicate _ _
  have h1000 : 1000 ≤ dfLarge.length := by rw [hlen]; omega
  refine ⟨h1000, (sample_size_clamped 600 dfLarge h1000).1, ?_⟩
  refine (sample_size_clamped 600 dfLarge h1000).2.2 ?_
  rw [hlen]
  decide

/-- In every reachable state, a recorded pick refers to the role's
currently bound field. -/
theorem reachable_pick_coherent (f0 g0 : String) (s : DashState)
    (hs : Reachable f0 g0 s) :
    (∀ fld v, s.mapbarPick = some (fld, v) → fld = s.mapBarField) ∧
    (∀ fld v, s.piePick = some (fld, v) → fld = s.pieField) := by
  induction hs with
  | start =>
      exact ⟨fun fld v h => by simp [initState] at h,
             fun fld v h => by simp [initState] at h⟩
  | next s e _ ih =>
      cases e with
      | setBrush r => exact ⟨fun fld v h => ih.1 fld v h, fun fld v h => ih.2 fld v h⟩
      | clickBar v' =>
          refine ⟨fun fld v h => ?_, fun fld v h => ih.2 fld v h⟩
          simp only [step] at h
          injection h with h
          injection h with h1 _
          exact h1.symm
      | clearBar =>
          exact ⟨fun fld v h => by simp [step] at h, fun fld v h => ih.2 fld v h⟩
      | clickPie v' =>
          refine ⟨fun fld v h => ih.1 fld v h, fun fld v h => ?_⟩
          simp only [step] at h
          injection h with h
          injection h with h1 _
          exact h1.symm
      | clearPie =>
          exact ⟨fun fld v h => ih.1 fld v h, fun fld v h => by simp [step] at h⟩
      | switchMapBarField f =>
          exact ⟨fun fld v h => by simp [step] at h, fun fld v h => ih.2 fld v h⟩
      | switchPieField f =>
          exact ⟨fun fld v h => ih.1 fld v h, fun fld v h => by simp [step] at h⟩

/-- C9: switching a role's bound field atomically leaves that role's
pick unset, and in every observable (reachable) session state a pick
value always refers to the role's currently bound field — never to a
previously bound one. -/
theorem field_switch_clears_pick (f0 g0 : String) (s : DashState)
    (hs : Reachable f0 g0 s) :
    (∀ f, (step s (.switchMapBarField f)).mapbarPick = none) ∧
    (∀ f, (step s (.switchPieField f)).piePick = none) ∧
    (∀ fld v, s.mapbarPick = some (fld, v) → fld = s.mapBarField) ∧
    (∀ fld v, s.piePick = some (fld, v) → fld = s.pieField) :=
  ⟨fun _ => rfl, fun _ => rfl,
   (reachable_pick_coherent f0 g0 s hs).1, (reachable_pick_coherent f0 g0 s hs).2⟩

/-- Witness for `field_switch_clears_pick`: a mapBar pick
`("accident_severity", "fatal")` becomes unset when the mapBar field is
switched to `"weather_conditions"`. -/
theorem field_switch_clears_pick_witness :
    ((step (initState "accident_severity" "day_of_week")
        (.clickBar (.str "fatal"))).mapbarPick
      = some ("accident_severity", .str "fatal")) ∧
    ((step (step (initState "accident_severity" "day_of_week")
        (.clickBar (.str "fatal"))) (.switchMapBarField "weather_conditions")).mapbarPick
      = none) :=
  ⟨by decide,
   (field_switch_clears_pick "accident_severity" "day_of_week"
      (step (initState "accident_severity" "day_of_week") (.clickBar (.str "fatal")))
      (Reachable.next _ _ Reachable.start)).1 "weather_conditions"⟩

end BMVVA
